import Mathlib

/-!
Shallow embedding of src/gt-scraper.py (class TeknoParrotScraper).

Markup navigation done by BeautifulSoup is modelled by a page structure whose
fields hold exactly what the corresponding soup queries in the source return;
all routing, derivation and export logic is translated line by line from the
source. Python dict fields that may be missing (or set to None) are modelled
as Option; a key the code never wrote is none. Fallible code (a Python
statement that can raise) is modelled with Except.
-/

namespace GT

/-!
String primitives. The Python string operations the source uses are
implemented here by structural recursion over the character list of the
string, so that every definition evaluates inside the kernel; the semantics
of each is the Python one (ASCII case mapping suffices for the tags and
titles the source compares).
-/

/-- Whether the first list is a prefix of the second. -/
def isPrefixL : List Char → List Char → Bool
  | [], _ => true
  | _ :: _, [] => false
  | a :: as, b :: bs => a = b && isPrefixL as bs

/-- Whether the needle occurs somewhere in the haystack; an empty needle
occurs everywhere, as for the Python in operator. -/
def containsL (needle : List Char) : List Char → Bool
  | [] => isPrefixL needle []
  | c :: rest => isPrefixL needle (c :: rest) || containsL needle rest

/-- Leftmost, non-overlapping split on a separator, fuelled so the recursion
is structural; the fuel is always at least the length of the input plus one,
which the recursion never exhausts. -/
def splitGo (sep : List Char) : Nat → List Char → List Char → List (List Char)
  | 0, acc, rest => [acc.reverse ++ rest]
  | fuel + 1, acc, rest =>
    match rest with
    | [] => [acc.reverse]
    | c :: cs =>
      if isPrefixL sep rest then
        acc.reverse :: splitGo sep fuel [] (rest.drop sep.length)
      else
        splitGo sep fuel (c :: acc) cs

/-- Python str.split(sep) for a nonempty separator. -/
def pySplitOn (sep s : String) : List String :=
  (splitGo sep.data (s.data.length + 1) [] s.data).map String.mk

/-- Python substring test (the needle in haystack operator). -/
def pyIn (needle haystack : String) : Bool :=
  containsL needle.data haystack.data

/-- Python str.startswith. -/
def pyStartsWith (s pre : String) : Bool :=
  isPrefixL pre.data s.data

/-- Python str.upper (ASCII). -/
def pyUpper (s : String) : String :=
  String.mk (s.data.map Char.toUpper)

/-- Python str.lower (ASCII). -/
def pyLower (s : String) : String :=
  String.mk (s.data.map Char.toLower)

/-- Whitespace tokenizer: the worker behind Python str.split() with no
argument, collecting maximal runs of non-whitespace characters. -/
def wsTokensGo (acc : List Char) : List Char → List (List Char)
  | [] => if acc.isEmpty then [] else [acc.reverse]
  | c :: cs =>
    if c.isWhitespace then
      if acc.isEmpty then wsTokensGo [] cs else acc.reverse :: wsTokensGo [] cs
    else
      wsTokensGo (c :: acc) cs

/-- Python str.split() with no argument: split on runs of whitespace and drop
empty pieces. -/
def pySplitWs (s : String) : List String :=
  (wsTokensGo [] s.data).map String.mk

/-- Python str.isdigit(): nonempty and every character a digit (the source only
ever applies it to ASCII header cells, so ASCII digits suffice). -/
def pyIsdigit (s : String) : Bool :=
  s ≠ "" && s.data.all Char.isDigit

/-- Python truthiness of an optional string: None and the empty string are
falsy. -/
def pyTruthy (o : Option String) : Bool :=
  match o with
  | none => false
  | some s => s ≠ ""

/-- One player row of the scorecard (gt-scraper.py line 145):
a dict with keys player and scores. -/
structure Player where
  player : String
  scores : List String
deriving Repr, DecidableEq

/-- The scorecard_data dict built by parse_scorecard (lines 109-186), plus the
two provenance keys stamped by scrape_user_entries (lines 233-234). A field is
none when the code left the key unwritten (or wrote Python None into it). -/
structure Record where
  entry_url : String
  game : Option String := none
  username : Option String := none
  course : Option String := none
  date : Option String := none
  capture_id : Option String := none
  holes : Option (List String) := none
  distances : Option (List String) := none
  pars : Option (List String) := none
  players : Option (List Player) := none
  total_score : Option String := none
  score_vs_par : Option String := none
  gsp : Option String := none
  youtube_video : Option String := none
  youtube_embed : Option String := none
  scraped_at : Option String := none
  query_user_id : Option String := none
deriving Repr, DecidableEq

/-- The scorecard table as seen by parse_scorecard:
header is the list of th texts of the first tr of thead, if thead and that tr
exist (lines 153-157); rows is the list of body rows, each row being its list
of stripped td texts (lines 130-135). A thead row reached through
table.find_all has no td cells and therefore appears as an empty row. -/
structure ScTable where
  header : Option (List String)
  rows : List (List String)
deriving Repr, DecidableEq

/-- The first div with class card, as found at line 172: headerText is the
text of its first h3.card-header if present (line 174), iframeSrc the src
attribute of its first iframe if the iframe exists and carries the attribute
(lines 176-177). -/
structure Card where
  headerText : Option String
  iframeSrc : Option String
deriving Repr, DecidableEq

/-- A detail page, as the fixed set of soup queries of parse_scorecard sees
it: h1 is the text of the first h1 (line 114); usernameBtn the text of the
btn-info button nested in the first ProfileViewer link, when both exist
(lines 118-122); table the first table.scorecard-table (line 124); card the
first div.card (line 172). -/
structure Page where
  h1 : Option String
  usernameBtn : Option String
  table : Option ScTable
  card : Option Card
deriving Repr, DecidableEq

/-- The only exception parse_scorecard can raise:
the IndexError of first_cell.split()[1] at line 144. -/
inductive ParseErr where
  | indexError
deriving Repr, DecidableEq

/-- State accumulated by the body-row loop (lines 128-151): the three growing
lists plus the scalar keys the loop writes straight into scorecard_data. -/
structure RowState where
  distances : List String := []
  pars : List String := []
  players : List Player := []
  course : Option String := none
  date : Option String := none
  capture_id : Option String := none
deriving Repr, DecidableEq

/-- One iteration of the body-row loop (lines 132-151). A row with no td
cells is skipped (line 134; the redundant row_text check at line 136 skips the
same rows). first_cell is the uppercased first cell text (line 137); the
branch chain mirrors lines 139-151. The PLAYER branch indexes
first_cell.split()[1] (line 144), which raises IndexError when the split has
fewer than two tokens. -/
def procRow (st : RowState) (row : List String) : Except ParseErr RowState :=
  match row with
  | [] => .ok st
  | c0 :: restCells =>
    let first_cell := pyUpper c0
    if first_cell = "DISTANCE" then
      .ok { st with distances := restCells }
    else if first_cell = "PAR" then
      .ok { st with pars := restCells }
    else if pyStartsWith first_cell "PLAYER" then
      match (pySplitWs first_cell).get? 1 with
      | some player_num =>
          .ok { st with players := st.players ++ [{ player := player_num, scores := restCells }] }
      | none => .error .indexError
    else if first_cell = "COURSE:" then
      .ok (match restCells.head? with
           | some c => { st with course := some c }
           | none => st)
    else if first_cell = "DATE:" then
      .ok (match restCells.head? with
           | some c => { st with date := some c }
           | none => st)
    else if first_cell = "CAPTURE ID:" then
      .ok (match restCells.head? with
           | some c => { st with capture_id := some c }
           | none => st)
    else
      .ok st

/-- The body-row loop itself (lines 132-151): fold procRow over the rows,
propagating the IndexError of a malformed PLAYER tag. -/
def procRows (st : RowState) : List (List String) → Except ParseErr RowState
  | [] => .ok st
  | row :: rest =>
    match procRow st row with
    | .error e => .error e
    | .ok st1 => procRows st1 rest

/-- Lines 112-122: the record holding entry_url, plus game from the first h1
and username from the profile-link button when those queries succeed. -/
def titleUserRecord (page : Page) (entry_url : String) : Record :=
  { entry_url := entry_url, game := page.h1, username := page.usernameBtn }

/-- Lines 146-161: install the scalar keys written by the loop and the four
sequence keys (holes falls back to the empty list initialised at line 128 when
the table has no header row). -/
def assembleTable (r : Record) (t : ScTable) (st : RowState) : Record :=
  { r with
    course := st.course
    date := st.date
    capture_id := st.capture_id
    holes := some (t.header.getD [])
    distances := some st.distances
    pars := some st.pars
    players := some st.players }

/-- Lines 163-170: derive total_score, score_vs_par and gsp from the scores of
the first player, when players is nonempty (line 163) and that score list is
nonempty (line 165). Each key mirrors the conditional expression of lines
167-169: negative index -k becomes get? (length - k), and a failed guard
writes Python None (modelled none). The try/except around these lines can
never fire, since every index is guarded. -/
def deriveScores (r : Record) : Record :=
  match r.players with
  | some (p1 :: _) =>
    let s := p1.scores
    if 0 < s.length then
      { r with
        total_score := if 3 < s.length then s.get? (s.length - 3) else none
        score_vs_par := if 2 < s.length then s.get? (s.length - 2) else none
        gsp := if 0 < s.length then s.get? (s.length - 1) else none }
    else r
  | _ => r

/-- Line 180: the video id between the first youtube.com/embed/ marker and any
trailing question mark, via the two Python split calls. -/
def embedVideoId (u : String) : String :=
  ((pySplitOn "youtube.com/embed/" u).getD 1 "" |> pySplitOn "?").headD ""

/-- Lines 172-184: the video block. The card, its Video header and a nonempty
iframe src must all be present; a src containing the youtube embed marker
yields the canonical watch URL plus the raw embed URL, any other src is stored
as youtube_video alone. -/
def applyVideo (page : Page) (r : Record) : Record :=
  match page.card with
  | none => r
  | some card =>
    match card.headerText with
    | none => r
    | some h =>
      if pyIn "Video" h then
        match card.iframeSrc with
        | none => r
        | some url =>
          if url = "" then r
          else if pyIn "youtube.com/embed/" url then
            { r with
              youtube_video := some ("https://www.youtube.com/watch?v=" ++ embedVideoId url)
              youtube_embed := some url }
          else
            { r with youtube_video := some url }
      else r

/-- parse_scorecard (lines 109-186). When the scorecard table is absent the
function returns at line 126, before the sequence keys, the score derivation
and the video block are ever reached. -/
def parse_scorecard (page : Page) (entry_url : String) : Except ParseErr Record :=
  let r := titleUserRecord page entry_url
  match page.table with
  | none => .ok r
  | some t =>
    match procRows {} t.rows with
    | .error e => .error e
    | .ok st => .ok (applyVideo page (deriveScores (assembleTable r t st)))

/-!
Game classifier (lines 91-107).
-/

/-- The fixed allow-list of tracked titles (lines 96-105). -/
def target_games : List String :=
  ["golden tee unplugged 2018",
   "golden tee live 2018",
   "golden tee unplugged 2017",
   "golden tee live 2017",
   "golden tee unplugged 2016",
   "power putt live 2013",
   "golden tee live 2007",
   "golden tee live 2006"]

/-- is_golden_tee_game (lines 91-107): a falsy title (absent or empty) is
rejected, otherwise some allow-list entry must occur in the lowercased
title. -/
def is_golden_tee_game (game_name : Option String) : Bool :=
  match game_name with
  | none => false
  | some s =>
    if s = "" then false
    else target_games.any (fun target => pyIn target (pyLower s))

/-!
Flat CSV export (save_to_csv, lines 252-283). The claims concern the shape
of the emitted table, so the writer is modelled as the list of rows it
writes: the header row of field names followed by one row of cell strings
per record.
-/

/-- The hole-column walk of lines 267-272: i is the index of the current
score, hole_count the number of columns emitted so far. A score is emitted
when the header cell at offset i+1 exists and is numeric; when the offset
runs past the headers the loop breaks; a non-numeric header cell falls into
neither branch, so that score is passed over and the walk continues. -/
def holeColumnsGo (headers : List String) : Nat → Nat → List String → List (Nat × String)
  | _, _, [] => []
  | i, hole_count, score :: rest =>
    if i + 1 < headers.length && pyIsdigit (headers.getD (i + 1) "") then
      (hole_count + 1, score) :: holeColumnsGo headers (i + 1) (hole_count + 1) rest
    else if headers.length ≤ i + 1 then
      []
    else
      holeColumnsGo headers (i + 1) hole_count rest

/-- The numbered hole columns derived from a header list and the scores of
player 0 (lines 266-272). -/
def holeColumns (headers scores : List String) : List (Nat × String) :=
  holeColumnsGo headers 0 0 scores

/-- One flattened record (lines 256-273): the twelve scalar keys written at
lines 256-263, in source order, followed by the hole_N keys. Scalar dict
reads use the empty-string default of entry.get (a key holding Python None
also renders as an empty cell in the written file, so none maps to the empty
string here). -/
def flat_entry (e : Record) : List (String × String) :=
  [("game", e.game.getD ""), ("username", e.username.getD ""),
   ("query_user_id", e.query_user_id.getD ""), ("course", e.course.getD ""),
   ("date", e.date.getD ""), ("capture_id", e.capture_id.getD ""),
   ("total_score", e.total_score.getD ""), ("score_vs_par", e.score_vs_par.getD ""),
   ("gsp", e.gsp.getD ""), ("youtube_video", e.youtube_video.getD ""),
   ("entry_url", e.entry_url), ("scraped_at", e.scraped_at.getD "")]
  ++ (match e.players with
      | some (p1 :: _) =>
        (holeColumns (e.holes.getD []) p1.scores).map
          (fun nv => ("hole_" ++ toString nv.1, nv.2))
      | _ => [])

/-- The fixed field-name list of line 276, exactly as written there. -/
def standard_keys : List String :=
  ["game", "username", "query_user_id", "course", "date", "total_score",
   "score_vs_par", "gsp", "youtube_video", "entry_url"]

/-- Decimal value of a digit list (every hole_N key carries a pure digit
suffix, so this is all that Python int() does at line 277). -/
def digitsToNat : List Char → Nat → Nat
  | [], acc => acc
  | c :: cs, acc => digitsToNat cs (acc * 10 + (c.toNat - 48))

/-- Numeric suffix of a hole_N key, as int(key.split(sep)[1]) at line 277
reads it. -/
def holeNum (k : String) : Nat :=
  digitsToNat ((pySplitOn "_" k).getD 1 "").data 0

/-- Stable insertion by numeric suffix: the sort of line 277. -/
def insertByNum (k : String) : List String → List String
  | [] => [k]
  | x :: xs => if holeNum k < holeNum x then k :: x :: xs else x :: insertByNum k xs

/-- The dynamically discovered hole_N field names of lines 275-277: the
distinct hole_ keys across all flattened records, sorted by numeric
suffix. -/
def hole_keys (flattened : List (List (String × String))) : List String :=
  (((flattened.map (fun d => d.map Prod.fst)).flatten).filter
      (fun k => pyStartsWith k "hole_")).dedup.foldl
    (fun acc k => insertByNum k acc) []

/-- One written CSV data row (lines 280-282): each field name looked up in
the flattened dict, a missing key rendering as an empty cell (restval) and
keys outside the field list dropped (extrasaction ignore). -/
def csvRow (fieldnames : List String) (d : List (String × String)) : List String :=
  fieldnames.map (fun k => ((d.find? (fun p => p.1 = k)).map Prod.snd).getD "")

/-- save_to_csv (lines 252-283), as the table it writes for a nonempty entry
list: the header row standard_keys ++ hole_keys followed by one row per
record. -/
def save_to_csv (entries : List Record) : List (List String) :=
  let flattened := entries.map flat_entry
  let fieldnames := standard_keys ++ hole_keys flattened
  fieldnames :: flattened.map (csvRow fieldnames)

/-!
Fetching (fetch_page, lines 76-89) and orchestration (scrape_user_entries,
lines 208-241, and scrape_all_users, lines 243-250). The network is modelled
by oracles: for fetch_page, a map from attempt number to the outcome of one
session.get plus raise_for_status (a non-2xx status raises and is caught like
any transport error); for the orchestrator, maps from URL to the parsed page
model (none standing for fetch_page returning None). Wall-clock timestamps
become an oracle indexed by the position of the link being processed, and
time.sleep disappears (it returns nothing).
-/

/-- The one exception class the fetch loop catches:
requests.exceptions.RequestException (line 84), which also covers the
HTTPError raised for a non-2xx status at line 82. -/
inductive NetErr where
  | requestException
deriving Repr, DecidableEq

/-- Line 78. -/
def max_retries : Nat := 3

/-- The retry loop of lines 79-89, with the remaining iteration count of
range(max_retries) made explicit: a successful attempt returns the body, a
failed one sleeps and moves to the next attempt, and running out of attempts
returns None. -/
def fetch_page_go (net : Nat → Except NetErr String) (attempt : Nat) :
    Nat → Option String
  | 0 => none
  | remaining + 1 =>
    match net attempt with
    | .ok text => some text
    | .error _ => fetch_page_go net (attempt + 1) remaining

/-- fetch_page (lines 76-89). -/
def fetch_page (net : Nat → Except NetErr String) : Option String :=
  fetch_page_go net 0 max_retries

/-- An entry link extracted from the leaderboard page (lines 188-206): the
resolved absolute URL and the best-effort game-name text. -/
structure EntryLink where
  url : String
  game : String
deriving Repr, DecidableEq

/-- The per-link loop of scrape_user_entries (lines 222-239), over an oracle
fetchD from detail URL to fetched-and-parsed page (none for a fetch failure)
and a timestamp oracle now indexed by the position of the link. A fetch
failure skips the link (line 224); a parse exception propagates, as the
source has no handler around parse_scorecard; a falsy parsed title falls back
to the link hint (lines 227-228); a rejected title discards the record (lines
230-231); an accepted one is stamped and appended (lines 233-235). -/
def scrape_links (fetchD : String → Option Page) (now : Nat → String)
    (user_id : String) : Nat → List EntryLink → Except ParseErr (List Record)
  | _, [] => .ok []
  | i, link :: rest =>
    match fetchD link.url with
    | none => scrape_links fetchD now user_id (i + 1) rest
    | some page =>
      match parse_scorecard page link.url with
      | .error e => .error e
      | .ok r0 =>
        let r1 := if pyTruthy r0.game then r0 else { r0 with game := some link.game }
        if is_golden_tee_game (some (r1.game.getD "")) then
          match scrape_links fetchD now user_id (i + 1) rest with
          | .error e => .error e
          | .ok tail =>
            .ok ({ r1 with scraped_at := some (now i), query_user_id := some user_id } :: tail)
        else
          scrape_links fetchD now user_id (i + 1) rest

/-- Line 210. -/
def base_url (user_id : String) : String :=
  "https://teknoparrot.com/en/Highscore/UserSpecific?queryId=" ++ user_id

/-- scrape_user_entries (lines 208-241): fetch the leaderboard page and
extract its links (modelled together by the oracle fetchB), give up on this
identifier when the fetch fails (line 214) or no links are found (line 217),
and otherwise run the per-link loop. -/
def scrape_user_entries (fetchB : String → Option (List EntryLink))
    (fetchD : String → Option Page) (now : Nat → String) (user_id : String) :
    Except ParseErr (List Record) :=
  match fetchB (base_url user_id) with
  | none => .ok []
  | some entry_links =>
    if entry_links.isEmpty then .ok []
    else scrape_links fetchD now user_id 0 entry_links

/-- scrape_all_users (lines 243-250): the per-identifier loop, each
contribution extending the accumulator, an exception propagating. -/
def scrape_all_users (fetchB : String → Option (List EntryLink))
    (fetchD : String → Option Page) (now : Nat → String) :
    List String → Except ParseErr (List Record)
  | [] => .ok []
  | user_id :: rest =>
    match scrape_user_entries fetchB fetchD now user_id with
    | .error e => .error e
    | .ok es =>
      match scrape_all_users fetchB fetchD now rest with
      | .error e => .error e
      | .ok tail => .ok (es ++ tail)

/-!
Specification-side definitions: these follow the words of the specification
sentences under verification, to be compared with the implementation
definitions above.
-/

/-- Spec wording: t occurs, case-insensitively, as a substring of s. -/
def ciSubstrOf (t s : String) : Bool :=
  pyIn (pyLower t) (pyLower s)

/-- Spec wording: the resolved game value of a parsed record, that is the
parsed title, falling back to the game hint of the link when parsing found no
(or an empty) title. -/
def resolvedGame (r : Record) (hint : String) : String :=
  match r.game with
  | none => hint
  | some s => if s = "" then hint else s

/-- Spec wording: the records retained from a list of entry links, with their
positions, keeping exactly those whose detail page was fetched, parsed, and
whose resolved game value the classifier accepts, each stamped with the
timestamp of its position and the identifier being processed. -/
def keptSpec (fetchD : String → Option Page) (now : Nat → String) (uid : String)
    (i : Nat) (links : List EntryLink) : List Record :=
  (links.enumFrom i).filterMap (fun il =>
    match fetchD il.2.url with
    | none => none
    | some page =>
      match parse_scorecard page il.2.url with
      | .error _ => none
      | .ok r0 =>
        let g := resolvedGame r0 il.2.game
        if is_golden_tee_game (some g) then
          some { r0 with game := some g, scraped_at := some (now il.1),
                         query_user_id := some uid }
        else none)

/-- Spec wording: the remaining cells of the last row whose tag (uppercased
first cell) equals the given tag, the empty list when no row carries it. -/
def lastRowTail (tag : String) (rows : List (List String)) : List String :=
  match rows.reverse.find? (fun row => row.head?.map pyUpper = some tag) with
  | some row => row.tail
  | none => []

/-- The player entry contributed by one body row: its label token and its
remaining cells, for a row whose tag starts with PLAYER and carries a second
token. -/
def playerRowOf (row : List String) : Option Player :=
  match row with
  | [] => none
  | c :: rest =>
    if pyStartsWith (pyUpper c) "PLAYER" then
      ((pySplitWs (pyUpper c)).get? 1).map (fun n => { player := n, scores := rest })
    else none

/-- Spec wording: the player entries of all PLAYER rows, in row order. -/
def playerRows (rows : List (List String)) : List Player :=
  rows.filterMap playerRowOf

/-- Whether a body row would make the PLAYER branch of the row loop raise:
its tag starts with PLAYER but splits into fewer than two tokens. -/
def playerTagBad (row : List String) : Bool :=
  match row with
  | [] => false
  | c :: _ => pyStartsWith (pyUpper c) "PLAYER" && (pySplitWs (pyUpper c)).length < 2

/-- Contiguous numbering of a list of values starting at n. -/
def numberedFrom (n : Nat) : List String → List (Nat × String)
  | [] => []
  | v :: vs => (n, v) :: numberedFrom (n + 1) vs

/-- Spec wording for the hole-column walk: starting at score index i, a score
whose header cell at offset i+1 is missing ends the walk; a numeric header
cell keeps the score; a non-numeric one passes over it and the walk
continues. -/
def keptScores (headers : List String) : Nat → List String → List String
  | _, [] => []
  | i, s :: rest =>
    if i + 1 < headers.length then
      (if pyIsdigit (headers.getD (i + 1) "") then [s] else []) ++
        keptScores headers (i + 1) rest
    else []

/-- Whether a parse produced a record. -/
def exceptIsOk : Except ParseErr Record → Bool
  | .ok _ => true
  | .error _ => false

/-!
Concrete pages, links and records used by the closed evaluation theorems.
-/

/-- A first player with five scores. -/
def pC1w : Player := { player := "1", scores := ["70", "71", "-2", "141", "99"] }

/-- A page whose scorecard table has one player row with five scores. -/
def pageC1w : Page :=
  { h1 := none, usernameBtn := none,
    table := some { header := none, rows := [["PLAYER 1", "70", "71", "-2", "141", "99"]] },
    card := none }

/-- The record parse_scorecard produces for pageC1w. -/
def recC1w : Record :=
  { entry_url := "e1", holes := some [], distances := some [], pars := some [],
    players := some [pC1w], total_score := some "-2", score_vs_par := some "141",
    gsp := some "99" }

/-- A page with a scorecard table, assorted tolerated rows and no bad PLAYER
row. -/
def pageC5w : Page :=
  { h1 := some "Golden Tee LIVE 2017", usernameBtn := none,
    table := some { header := some ["Hole", "1"],
                    rows := [[], ["DISTANCE", "300"], ["PAR", "4"], ["PLAYER 1", "70"],
                             ["COURSE:", "Pine"], ["UNKNOWN", "x"]] },
    card := none }

/-- A page with a scorecard table and a video card holding a youtube embed. -/
def pageC7w : Page :=
  { h1 := none, usernameBtn := none, table := some { header := none, rows := [] },
    card := some { headerText := some "Scorecard Video",
                   iframeSrc := some "https://www.youtube.com/embed/abc123?x=1" } }

/-- The record parse_scorecard produces for pageC7w. -/
def recC7w : Record :=
  { entry_url := "e7", holes := some [], distances := some [], pars := some [],
    players := some [],
    youtube_video := some "https://www.youtube.com/watch?v=abc123",
    youtube_embed := some "https://www.youtube.com/embed/abc123?x=1" }

/-- Body rows with two DISTANCE rows, one PAR row and two PLAYER rows. -/
def rowsC10w : List (List String) :=
  [["DISTANCE", "300", "410"], ["distance", "301", "411"],
   ["PAR", "4"], ["PLAYER 1", "70"], ["PLAYER 2", "71"]]

/-- A page whose table has two DISTANCE rows, one PAR row and two PLAYER
rows. -/
def pageC10w : Page :=
  { h1 := none, usernameBtn := none,
    table := some { header := some ["Hole", "1"], rows := rowsC10w },
    card := none }

/-- The record parse_scorecard produces for pageC10w: the later DISTANCE row
overwrote the earlier one, both PLAYER rows survive in order. -/
def recC10w : Record :=
  { entry_url := "e10", holes := some ["Hole", "1"], distances := some ["301", "411"],
    pars := some ["4"],
    players := some [{ player := "1", scores := ["70"] }, { player := "2", scores := ["71"] }],
    gsp := some "70" }

/-- A record carrying every scalar field, used as the failing input of the
flat-export column claim. -/
def recC4bug : Record :=
  { entry_url := "E", game := some "G", username := some "U", query_user_id := some "Q",
    course := some "C", date := some "D", capture_id := some "CAP-1",
    total_score := some "20", score_vs_par := some "-4", gsp := some "100",
    youtube_video := some "Y", scraped_at := some "2026-10-12T00:00:00",
    holes := some ["Hole", "1", "2"],
    players := some [{ player := "1", scores := ["4", "5"] }] }

/-- A detail page carrying a tracked title. -/
def pageC8w : Page :=
  { h1 := some "Golden Tee LIVE 2018", usernameBtn := some "Ace",
    table := none, card := none }

/-- A detail-page oracle: the first link resolves to pageC8w, every other
fetch fails. -/
def fetchC8w : String → Option Page :=
  fun url => if url = "https://teknoparrot.com/e1" then some pageC8w else none

/-- Two entry links; the second one will fail to fetch. -/
def linksC8w : List EntryLink :=
  [{ url := "https://teknoparrot.com/e1", game := "hint" },
   { url := "https://teknoparrot.com/e2", game := "Golden Tee LIVE 2006" }]

/-- A timestamp oracle for the per-link loop. -/
def nowC8w : Nat → String := fun i => "T" ++ toString i

/-- The single record the per-link loop keeps for linksC8w under fetchC8w. -/
def recC8w : Record :=
  { entry_url := "https://teknoparrot.com/e1", game := some "Golden Tee LIVE 2018",
    username := some "Ace", scraped_at := some "T0", query_user_id := some "user42" }

end GT

deriving instance DecidableEq for Except

namespace GT

/-! Preservation lemmas for the parse pipeline stages. -/

theorem applyVideo_fields (page : Page) (r : Record) :
    (applyVideo page r).players = r.players ∧
    (applyVideo page r).total_score = r.total_score ∧
    (applyVideo page r).score_vs_par = r.score_vs_par ∧
    (applyVideo page r).gsp = r.gsp ∧
    (applyVideo page r).distances = r.distances ∧
    (applyVideo page r).pars = r.pars := by
  unfold applyVideo
  refine ⟨?_, ?_, ?_, ?_, ?_, ?_⟩ <;> (repeat' split) <;> rfl

theorem deriveScores_fields (r : Record) :
    (deriveScores r).players = r.players ∧
    (deriveScores r).distances = r.distances ∧
    (deriveScores r).pars = r.pars ∧
    (deriveScores r).youtube_video = r.youtube_video ∧
    (deriveScores r).youtube_embed = r.youtube_embed := by
  unfold deriveScores
  refine ⟨?_, ?_, ?_, ?_, ?_⟩ <;> (repeat' split) <;> (try rfl) <;>
    (dsimp only; split <;> rfl)

end GT

namespace GT

/-- C2 counterexample: for a detail page with no scorecard table the parser
returns early, so holes, distances, pars and players are absent from the
record (none), not present as empty sequences as the claim states. -/
theorem C2_counterexample :
    parse_scorecard { h1 := none, usernameBtn := none, table := none, card := none }
        "https://example.org/e0" = .ok { entry_url := "https://example.org/e0" } ∧
    ({ entry_url := "https://example.org/e0" } : Record).holes ≠ some [] ∧
    ({ entry_url := "https://example.org/e0" } : Record).distances ≠ some [] ∧
    ({ entry_url := "https://example.org/e0" } : Record).pars ≠ some [] ∧
    ({ entry_url := "https://example.org/e0" } : Record).players ≠ some [] := by
  exact ⟨rfl, by decide, by decide, by decide, by decide⟩

/-- C2 (amended): for every detail page with no scorecard table the parser
returns, without failing, exactly the record holding entry_url plus whatever
title and username were found; in particular the sequence fields holes,
distances, pars and players and every scalar score field are left absent. -/
theorem C2_no_table_partial_record (page : Page) (url : String) (h : page.table = none) :
    parse_scorecard page url =
      .ok { entry_url := url, game := page.h1, username := page.usernameBtn } := by
  unfold parse_scorecard titleUserRecord
  rw [h]

theorem C2_no_table_partial_record_witness :
    parse_scorecard
        { h1 := some "Golden Tee LIVE 2018", usernameBtn := some "PlayerOne",
          table := none, card := none } "https://example.org/e1" =
      .ok { entry_url := "https://example.org/e1", game := some "Golden Tee LIVE 2018",
            username := some "PlayerOne" } :=
  C2_no_table_partial_record _ _ rfl

/-- C3 counterexample: with headers Hole,1,X,3 and scores 4,5,9 the walk
emits hole_1 = 4, passes over the score whose header cell is X, and then
emits hole_2 = 9 for a LATER score — emission does not stop permanently at
the first score whose header cell fails the numeric check. -/
theorem C3_counterexample :
    holeColumns ["Hole", "1", "X", "3"] ["4", "5", "9"] = [(1, "4"), (2, "9")] := by
  decide

theorem holeColumnsGo_eq_keptScores (headers : List String) :
    ∀ (scores : List String) (i hc : Nat),
      holeColumnsGo headers i hc scores = numberedFrom (hc + 1) (keptScores headers i scores) := by
  intro scores
  induction scores with
  | nil => intro i hc; rfl
  | cons s rest ih =>
    intro i hc
    unfold holeColumnsGo keptScores
    by_cases h1 : i + 1 < headers.length
    · by_cases h2 : pyIsdigit (headers.getD (i + 1) "") = true
      · rw [if_pos (show (decide (i + 1 < headers.length) &&
              pyIsdigit (headers.getD (i + 1) "")) = true by
            rw [decide_eq_true h1, Bool.true_and]; exact h2)]
        rw [if_pos h1, if_pos h2]
        simp only [List.singleton_append, List.nil_append, numberedFrom]
        rw [ih (i + 1) (hc + 1)]
        rfl
      · rw [if_neg (show ¬((decide (i + 1 < headers.length) &&
              pyIsdigit (headers.getD (i + 1) "")) = true) by
            rw [decide_eq_true h1, Bool.true_and]; exact h2)]
        rw [if_neg (Nat.not_le.mpr h1), if_pos h1, if_neg h2]
        simp only [List.nil_append]
        exact ih (i + 1) hc
    · rw [if_neg (show ¬((decide (i + 1 < headers.length) &&
            pyIsdigit (headers.getD (i + 1) "")) = true) by
          rw [decide_eq_false h1, Bool.false_and]; exact Bool.false_ne_true)]
      rw [if_pos (Nat.le_of_not_lt h1), if_neg h1]
      rfl

/-- C3 (amended): the hole columns of a record in the flat export are the
scores of player 0 whose header cell at offset i+1 exists and is numeric,
numbered contiguously from 1 in emission order; a non-numeric header cell
passes over that single score without stopping the walk, and the walk stops
permanently only when the header offset runs past the header list. -/
theorem C3_hole_columns (headers scores : List String) :
    holeColumns headers scores = numberedFrom 1 (keptScores headers 0 scores) :=
  holeColumnsGo_eq_keptScores headers scores 0 0

end GT

namespace GT

theorem procRow_ok_of_safe (st : RowState) (row : List String)
    (h : playerTagBad row = false) : ∃ st1, procRow st row = .ok st1 := by
  rcases row with _ | ⟨c, rest⟩
  · exact ⟨st, rfl⟩
  · simp only [playerTagBad] at h
    simp only [procRow]
    by_cases hd : pyUpper c = "DISTANCE"
    · rw [if_pos hd]; exact ⟨_, rfl⟩
    · rw [if_neg hd]
      by_cases hp : pyUpper c = "PAR"
      · rw [if_pos hp]; exact ⟨_, rfl⟩
      · rw [if_neg hp]
        by_cases hpl : pyStartsWith (pyUpper c) "PLAYER" = true
        · rw [if_pos hpl]
          rcases hg : (pySplitWs (pyUpper c)).get? 1 with _ | n
          · exfalso
            have hlen : (pySplitWs (pyUpper c)).length ≤ 1 := List.get?_eq_none.mp hg
            rw [hpl, Bool.true_and] at h
            exact absurd (by omega : (pySplitWs (pyUpper c)).length < 2) (by simpa using h)
          · exact ⟨_, rfl⟩
        · rw [if_neg hpl]
          repeat' split
          all_goals exact ⟨_, rfl⟩

theorem procRows_ok_of_safe : ∀ (rows : List (List String)) (st : RowState),
    (∀ row ∈ rows, playerTagBad row = false) → ∃ st', procRows st rows = .ok st' := by
  intro rows
  induction rows with
  | nil => intro st _; exact ⟨st, rfl⟩
  | cons row rest ih =>
    intro st h
    obtain ⟨st1, h1⟩ := procRow_ok_of_safe st row (h row (by simp))
    obtain ⟨st', h2⟩ := ih st1 (fun r hr => h r (by simp [hr]))
    refine ⟨st', ?_⟩
    unfold procRows
    rw [h1]
    exact h2

/-- C5 counterexample: a detail page whose scorecard table has a body row
with single cell PLAYER makes first_cell.split()[1] raise IndexError,
aborting the whole parse — contrary to the claim that no body row can abort
it. -/
theorem C5_counterexample :
    parse_scorecard
        { h1 := none, usernameBtn := none,
          table := some { header := none, rows := [["PLAYER"]] }, card := none } "u" =
      .error ParseErr.indexError := by
  decide

/-- C5 (amended): every extraction step tolerates absent or malformed
elements and the parser returns a record for every page and source URL, with
a single exception: a table body row whose tag starts with PLAYER but splits
into fewer than two whitespace tokens raises an index error that aborts the
whole parse. For every page without such a row, a record is returned. -/
theorem C5_parse_total_unless_bad_player_row (page : Page) (url : String)
    (h : ∀ row ∈ (page.table.map ScTable.rows).getD [], playerTagBad row = false) :
    ∃ r, parse_scorecard page url = .ok r := by
  unfold parse_scorecard
  cases ht : page.table with
  | none => exact ⟨_, rfl⟩
  | some t =>
    have hrows : ∀ row ∈ t.rows, playerTagBad row = false := by
      intro row hr
      exact h row (by rw [ht]; exact hr)
    obtain ⟨st, hst⟩ := procRows_ok_of_safe t.rows {} hrows
    dsimp only
    rw [hst]
    exact ⟨_, rfl⟩

theorem C5_parse_total_unless_bad_player_row_witness :
    exceptIsOk (parse_scorecard pageC5w "https://example.org/e5") = true := by
  obtain ⟨r, hr⟩ :=
    C5_parse_total_unless_bad_player_row pageC5w "https://example.org/e5" (by decide)
  rw [hr]
  rfl

end GT

namespace GT

/-! Inversion lemmas for parse_scorecard. -/

theorem parse_table_none (page : Page) (url : String) (h : page.table = none) :
    parse_scorecard page url = .ok (titleUserRecord page url) := by
  unfold parse_scorecard
  rw [h]

theorem parse_ok_inv (page : Page) (url : String) (r : Record) (t : ScTable)
    (hparse : parse_scorecard page url = .ok r) (ht : page.table = some t) :
    ∃ st, procRows {} t.rows = .ok st ∧
      r = applyVideo page (deriveScores (assembleTable (titleUserRecord page url) t st)) := by
  unfold parse_scorecard at hparse
  rw [ht] at hparse
  dsimp only at hparse
  cases hpr : procRows {} t.rows with
  | error e => rw [hpr] at hparse; cases hparse
  | ok st =>
    rw [hpr] at hparse
    exact ⟨st, rfl, (Except.ok.inj hparse).symm⟩

/-- C1 counterexample: for a parsed scorecard whose first player has the
length-2 score sequence a,b, the claim says score_vs_par is still taken from
offset -2 (value a, as the last conjunct exhibits), but the code carries an
explicit length guard and leaves it None, while gsp is still the last
element. -/
theorem C1_counterexample :
    (parse_scorecard
        { h1 := none, usernameBtn := none,
          table := some { header := none, rows := [["PLAYER 1", "a", "b"]] },
          card := none } "u").toOption.map (fun r => (r.score_vs_par, r.gsp)) =
      some (none, some "b") ∧
    (["a", "b"] : List String).reverse.get? 1 = some "a" := by
  exact ⟨by decide, by decide⟩

/-- C1 (amended): for every successfully parsed scorecard with a first
player, total_score, score_vs_par and gsp come from fixed offsets from the
end of that player's score sequence — third-from-last, second-from-last,
last — but each under its own explicit length guard: total_score only when
the sequence has more than 3 elements, score_vs_par only when it has more
than 2 (a length-2 sequence leaves it unset), and gsp whenever it is
non-empty. -/
theorem C1_score_offsets_guarded (page : Page) (url : String) (r : Record)
    (p : Player) (ps : List Player)
    (hparse : parse_scorecard page url = .ok r)
    (hplayers : r.players = some (p :: ps)) :
    r.total_score = (if 3 < p.scores.length then p.scores.reverse.get? 2 else none) ∧
    r.score_vs_par = (if 2 < p.scores.length then p.scores.reverse.get? 1 else none) ∧
    r.gsp = (if 0 < p.scores.length then p.scores.reverse.get? 0 else none) := by
  cases ht : page.table with
  | none =>
    rw [parse_table_none page url ht] at hparse
    have hr : r = titleUserRecord page url := (Except.ok.inj hparse).symm
    rw [hr] at hplayers
    cases hplayers
  | some t =>
    obtain ⟨st, hst, hr⟩ := parse_ok_inv page url r t hparse ht
    set r3 := assembleTable (titleUserRecord page url) t st with hr3
    have hAV := applyVideo_fields page (deriveScores r3)
    have hDS := deriveScores_fields r3
    have hpl3 : r3.players = some st.players := rfl
    have hstp : st.players = p :: ps := by
      have : r.players = some st.players := by
        rw [hr, hAV.1, hDS.1, hpl3]
      exact Option.some.inj (this.symm.trans hplayers)
    have hr3players : r3.players = some (p :: ps) := by rw [hpl3, hstp]
    have hders : deriveScores r3 =
        (if 0 < p.scores.length then
          { r3 with
            total_score := if 3 < p.scores.length then p.scores.get? (p.scores.length - 3) else none
            score_vs_par := if 2 < p.scores.length then p.scores.get? (p.scores.length - 2) else none
            gsp := if 0 < p.scores.length then p.scores.get? (p.scores.length - 1) else none }
        else r3) := by
      unfold deriveScores
      rw [hr3players]
    have hts : r.total_score = (deriveScores r3).total_score := by rw [hr, hAV.2.1]
    have hvp : r.score_vs_par = (deriveScores r3).score_vs_par := by rw [hr, hAV.2.2.1]
    have hg : r.gsp = (deriveScores r3).gsp := by rw [hr, hAV.2.2.2.1]
    by_cases hlen : 0 < p.scores.length
    · rw [if_pos hlen] at hders
      refine ⟨?_, ?_, ?_⟩
      · rw [hts, hders]
        dsimp only
        by_cases h3 : 3 < p.scores.length
        · rw [if_pos h3, if_pos h3, List.get?_reverse (by omega)]
          congr 1
        · rw [if_neg h3, if_neg h3]
      · rw [hvp, hders]
        dsimp only
        by_cases h2 : 2 < p.scores.length
        · rw [if_pos h2, if_pos h2, List.get?_reverse (by omega)]
          congr 1
        · rw [if_neg h2, if_neg h2]
      · rw [hg, hders]
        dsimp only
        rw [if_pos hlen, if_pos hlen, List.get?_reverse (by omega)]
        congr 1
    · rw [if_neg hlen] at hders
      have h0 : p.scores.length = 0 := Nat.eq_zero_of_not_pos hlen
      have hz3 : ¬ 3 < p.scores.length := by omega
      have hz2 : ¬ 2 < p.scores.length := by omega
      refine ⟨?_, ?_, ?_⟩
      · rw [hts, hders, if_neg hz3]; rfl
      · rw [hvp, hders, if_neg hz2]; rfl
      · rw [hg, hders, if_neg hlen]; rfl

end GT

namespace GT

theorem C1_score_offsets_guarded_witness :
    parse_scorecard pageC1w "e1" = .ok recC1w ∧
    (recC1w.total_score = (if 3 < pC1w.scores.length then pC1w.scores.reverse.get? 2 else none) ∧
     recC1w.score_vs_par = (if 2 < pC1w.scores.length then pC1w.scores.reverse.get? 1 else none) ∧
     recC1w.gsp = (if 0 < pC1w.scores.length then pC1w.scores.reverse.get? 0 else none)) :=
  ⟨by decide, C1_score_offsets_guarded pageC1w "e1" recC1w pC1w [] (by decide) (by decide)⟩

end GT

namespace GT

theorem procRow_ok_effects (st st1 : RowState) (row : List String)
    (h : procRow st row = .ok st1) :
    st1.distances = (if row.head?.map pyUpper = some "DISTANCE" then row.tail else st.distances) ∧
    st1.pars = (if row.head?.map pyUpper = some "PAR" then row.tail else st.pars) ∧
    st1.players = st.players ++ (playerRowOf row).toList := by
  rcases row with _ | ⟨c, rest⟩
  · cases h
    refine ⟨?_, ?_, ?_⟩ <;> simp [playerRowOf]
  · simp only [procRow] at h
    by_cases hd : pyUpper c = "DISTANCE"
    · rw [if_pos hd] at h
      cases h
      have hplf : pyStartsWith (pyUpper c) "PLAYER" = false := by rw [hd]; decide
      refine ⟨by simp [hd],
              by simp [hd, show ("DISTANCE" : String) ≠ "PAR" by decide],
              by simp [playerRowOf, hplf]⟩
    · rw [if_neg hd] at h
      by_cases hp : pyUpper c = "PAR"
      · rw [if_pos hp] at h
        cases h
        have hplf : pyStartsWith (pyUpper c) "PLAYER" = false := by rw [hp]; decide
        refine ⟨by simp [hp, show ("PAR" : String) ≠ "DISTANCE" by decide],
                by simp [hp],
                by simp [playerRowOf, hplf]⟩
      · rw [if_neg hp] at h
        by_cases hpl : pyStartsWith (pyUpper c) "PLAYER" = true
        · rw [if_pos hpl] at h
          cases hg : (pySplitWs (pyUpper c)).get? 1 with
          | none => rw [hg] at h; cases h
          | some n =>
            rw [hg] at h
            cases h
            have hg2 : (pySplitWs (pyUpper c))[1]? = some n := by
              rw [← List.get?_eq_getElem?]
              exact hg
            refine ⟨by simp [hd], by simp [hp], by simp [playerRowOf, hpl, hg2]⟩
        · rw [if_neg hpl] at h
          have hplf : pyStartsWith (pyUpper c) "PLAYER" = false := by
            revert hpl
            cases pyStartsWith (pyUpper c) "PLAYER" <;> simp
          have hsame : st1.distances = st.distances ∧ st1.pars = st.pars ∧
              st1.players = st.players := by
            split at h
            · cases hhd : rest.head? <;> rw [hhd] at h <;> cases h <;> exact ⟨rfl, rfl, rfl⟩
            · split at h
              · cases hhd : rest.head? <;> rw [hhd] at h <;> cases h <;> exact ⟨rfl, rfl, rfl⟩
              · split at h
                · cases hhd : rest.head? <;> rw [hhd] at h <;> cases h <;>
                    exact ⟨rfl, rfl, rfl⟩
                · cases h; exact ⟨rfl, rfl, rfl⟩
          refine ⟨?_, ?_, ?_⟩
          · rw [hsame.1, if_neg (by simp [hd])]
          · rw [hsame.2.1, if_neg (by simp [hp])]
          · rw [hsame.2.2]
            simp [playerRowOf, hplf]

theorem playerRows_cons (row : List String) (rest : List (List String)) :
    playerRows (row :: rest) = (playerRowOf row).toList ++ playerRows rest := by
  cases hg : playerRowOf row <;> simp [playerRows, List.filterMap_cons, hg]

theorem procRows_effects : ∀ (rows : List (List String)) (st st' : RowState),
    procRows st rows = .ok st' →
    st'.distances =
      (match rows.reverse.find? (fun row => row.head?.map pyUpper = some "DISTANCE") with
       | some row => row.tail
       | none => st.distances) ∧
    st'.pars =
      (match rows.reverse.find? (fun row => row.head?.map pyUpper = some "PAR") with
       | some row => row.tail
       | none => st.pars) ∧
    st'.players = st.players ++ playerRows rows := by
  intro rows
  induction rows with
  | nil =>
    intro st st' h
    cases h
    exact ⟨rfl, rfl, by simp [playerRows]⟩
  | cons row rest ih =>
    intro st st' h
    unfold procRows at h
    cases hpr : procRow st row with
    | error e => rw [hpr] at h; cases h
    | ok st1 =>
      rw [hpr] at h
      obtain ⟨hd1, hp1, hpl1⟩ := procRow_ok_effects st st1 row hpr
      obtain ⟨hdI, hpI, hplI⟩ := ih st1 st' h
      refine ⟨?_, ?_, ?_⟩
      · rw [hdI, List.reverse_cons, List.find?_append]
        cases hf : rest.reverse.find?
            (fun row => row.head?.map pyUpper = some "DISTANCE") with
        | some rw2 => rfl
        | none =>
          rw [hd1]
          by_cases hP : row.head?.map pyUpper = some "DISTANCE"
          · rw [if_pos hP, List.find?_cons_of_pos _ (by simpa using hP)]
            rfl
          · rw [if_neg hP, List.find?_cons_of_neg _ (by simpa using hP)]
            rfl
      · rw [hpI, List.reverse_cons, List.find?_append]
        cases hf : rest.reverse.find?
            (fun row => row.head?.map pyUpper = some "PAR") with
        | some rw2 => rfl
        | none =>
          rw [hp1]
          by_cases hP : row.head?.map pyUpper = some "PAR"
          · rw [if_pos hP, List.find?_cons_of_pos _ (by simpa using hP)]
            rfl
          · rw [if_neg hP, List.find?_cons_of_neg _ (by simpa using hP)]
            rfl
      · rw [hplI, hpl1, playerRows_cons, List.append_assoc]

/-- C10 (confirmed): within one scorecard table, when several body rows carry
the tag DISTANCE (respectively PAR), the record holds the remaining cells of
the last such row — each later row silently overwrites the earlier value —
whereas every PLAYER-tagged row appends an entry to players, preserving row
order. -/
theorem C10_last_distance_par_players_append (page : Page) (url : String) (t : ScTable)
    (r : Record) (ht : page.table = some t) (hparse : parse_scorecard page url = .ok r) :
    r.distances = some (lastRowTail "DISTANCE" t.rows) ∧
    r.pars = some (lastRowTail "PAR" t.rows) ∧
    r.players = some (playerRows t.rows) := by
  obtain ⟨st, hst, hr⟩ := parse_ok_inv page url r t hparse ht
  obtain ⟨hdE, hpE, hplE⟩ := procRows_effects t.rows {} st hst
  have hAV := applyVideo_fields page (deriveScores (assembleTable (titleUserRecord page url) t st))
  have hDS := deriveScores_fields (assembleTable (titleUserRecord page url) t st)
  refine ⟨?_, ?_, ?_⟩
  · rw [hr, hAV.2.2.2.2.1, hDS.2.1]
    show some st.distances = _
    rw [hdE]
    unfold lastRowTail
    cases hf : t.rows.reverse.find? (fun row => row.head?.map pyUpper = some "DISTANCE") <;>
      rfl
  · rw [hr, hAV.2.2.2.2.2, hDS.2.2.1]
    show some st.pars = _
    rw [hpE]
    unfold lastRowTail
    cases hf : t.rows.reverse.find? (fun row => row.head?.map pyUpper = some "PAR") <;>
      rfl
  · rw [hr, hAV.1, hDS.1]
    show some st.players = _
    rw [hplE]
    rfl

theorem C10_last_distance_par_players_append_witness :
    parse_scorecard pageC10w "e10" = .ok recC10w ∧
    (recC10w.distances = some (lastRowTail "DISTANCE" rowsC10w) ∧
     recC10w.pars = some (lastRowTail "PAR" rowsC10w) ∧
     recC10w.players = some (playerRows rowsC10w)) :=
  ⟨by decide,
   C10_last_distance_par_players_append pageC10w "e10"
     { header := some ["Hole", "1"], rows := rowsC10w } recC10w rfl (by decide)⟩

end GT

namespace GT

/-- C7 counterexample: a detail page with the video card and a youtube embed
source but no scorecard table — the parser returns at line 126 before the
video block is processed, so youtube_video stays unset even though the
embed-path condition of the claim holds. -/
theorem C7_counterexample :
    parse_scorecard
        { h1 := none, usernameBtn := none, table := none,
          card := some { headerText := some "Video",
                         iframeSrc := some "https://www.youtube.com/embed/abc123?x=1" } }
        "u7c" = .ok { entry_url := "u7c" } ∧
    pyIn "youtube.com/embed/" "https://www.youtube.com/embed/abc123?x=1" = true ∧
    ({ entry_url := "u7c" } : Record).youtube_video = none := by
  exact ⟨by decide, by decide, rfl⟩

/-- C7 (amended): for every detail page that carries a scorecard table (so
the parse reaches the video block and succeeds) and whose first card-style
container has header text containing Video and an embedded iframe with a
nonempty source URL: if the source contains the youtube embed path,
youtube_video is the canonical watch URL built from the text between
youtube.com/embed/ and any trailing question mark and youtube_embed is the
raw source unchanged; otherwise youtube_video is the raw source and
youtube_embed stays unset. -/
theorem C7_video_fields (page : Page) (url : String) (r : Record) (t : ScTable)
    (c : Card) (h u : String)
    (hparse : parse_scorecard page url = .ok r)
    (ht : page.table = some t)
    (hc : page.card = some c) (hh : c.headerText = some h)
    (hv : pyIn "Video" h = true) (hsrc : c.iframeSrc = some u) (hne : u ≠ "") :
    (pyIn "youtube.com/embed/" u = true →
      r.youtube_video = some ("https://www.youtube.com/watch?v=" ++ embedVideoId u) ∧
      r.youtube_embed = some u) ∧
    (pyIn "youtube.com/embed/" u = false →
      r.youtube_video = some u ∧ r.youtube_embed = none) := by
  obtain ⟨st, hst, hr⟩ := parse_ok_inv page url r t hparse ht
  set r4 := deriveScores (assembleTable (titleUserRecord page url) t st) with hr4
  have hye : r4.youtube_embed = none := by
    rw [hr4, (deriveScores_fields _).2.2.2.2]
    rfl
  have happ : applyVideo page r4 =
      (if pyIn "youtube.com/embed/" u then
        { r4 with
          youtube_video := some ("https://www.youtube.com/watch?v=" ++ embedVideoId u)
          youtube_embed := some u }
      else { r4 with youtube_video := some u }) := by
    unfold applyVideo
    rw [hc]
    dsimp only
    rw [hh]
    dsimp only
    rw [if_pos hv, hsrc]
    dsimp only
    rw [if_neg hne]
  constructor
  · intro hemb
    rw [hr, happ, if_pos hemb]
    exact ⟨rfl, rfl⟩
  · intro hemb
    rw [hr, happ, if_neg (by simp [hemb])]
    refine ⟨rfl, ?_⟩
    exact hye
end GT

namespace GT

theorem C7_video_fields_witness :
    recC7w.youtube_video =
      some ("https://www.youtube.com/watch?v=" ++
        embedVideoId "https://www.youtube.com/embed/abc123?x=1") ∧
    recC7w.youtube_embed = some "https://www.youtube.com/embed/abc123?x=1" :=
  (C7_video_fields pageC7w "e7" recC7w { header := none, rows := [] }
      { headerText := some "Scorecard Video",
        iframeSrc := some "https://www.youtube.com/embed/abc123?x=1" }
      "Scorecard Video" "https://www.youtube.com/embed/abc123?x=1"
      (by decide) rfl rfl rfl (by decide) rfl (by decide)).1 (by decide)

end GT

namespace GT

/-- C6 (confirmed): the classifier returns true exactly when some entry of
the fixed allow-list occurs, case-insensitively, as a substring of the title;
an absent or empty title yields false. -/
theorem C6_classifier_iff (title : Option String) :
    (is_golden_tee_game title = true ↔
      ∃ t ∈ target_games, ciSubstrOf t (title.getD "") = true) ∧
    is_golden_tee_game none = false ∧ is_golden_tee_game (some "") = false := by
  refine ⟨?_, rfl, rfl⟩
  cases title with
  | none => decide
  | some s =>
    by_cases hs : s = ""
    · subst hs
      decide
    · simp only [is_golden_tee_game, if_neg hs, Option.getD]
      rw [List.any_eq_true]
      have key : ∀ t ∈ target_games, ciSubstrOf t s = pyIn t (pyLower s) := by
        intro t ht
        have hl : pyLower t = t := by fin_cases ht <;> decide
        unfold ciSubstrOf
        rw [hl]
      constructor
      · rintro ⟨t, ht, hpt⟩
        exact ⟨t, ht, by rw [key t ht]; exact hpt⟩
      · rintro ⟨t, ht, hct⟩
        exact ⟨t, ht, by rw [← key t ht]; exact hct⟩

theorem C6_classifier_iff_witness :
    is_golden_tee_game (some "Golden Tee LIVE 2018 (US)") = true :=
  (C6_classifier_iff (some "Golden Tee LIVE 2018 (US)")).1.mpr
    ⟨"golden tee live 2018", by decide, by decide⟩

theorem record_set_game (r : Record) (s : String) (h : r.game = some s) :
    { r with game := some s } = r := by
  rw [← h]

theorem resolve_game_eq (r0 : Record) (hint : String) :
    (if pyTruthy r0.game then r0 else { r0 with game := some hint }) =
      { r0 with game := some (resolvedGame r0 hint) } := by
  cases hg : r0.game with
  | none => simp [pyTruthy, resolvedGame, hg]
  | some s =>
    by_cases hs : s = ""
    · subst hs
      simp [pyTruthy, resolvedGame, hg]
    · have hT : pyTruthy (some s) = true := by
        simp [pyTruthy, hs]
      have hres : resolvedGame r0 hint = s := by
        unfold resolvedGame
        rw [hg]
        exact if_neg hs
      rw [if_pos hT, hres]
      exact (record_set_game r0 s hg).symm

theorem scrape_links_eq_keptSpec : ∀ (links : List EntryLink)
    (fetchD : String → Option Page) (now : Nat → String) (uid : String) (i : Nat)
    (out : List Record), scrape_links fetchD now uid i links = .ok out →
    out = keptSpec fetchD now uid i links := by
  intro links
  induction links with
  | nil =>
    intro fetchD now uid i out h
    cases h
    rfl
  | cons l ls ih =>
    intro fetchD now uid i out h
    unfold scrape_links at h
    unfold keptSpec
    rw [show List.enumFrom i (l :: ls) = (i, l) :: List.enumFrom (i + 1) ls from rfl,
      List.filterMap_cons]
    dsimp only
    cases hF : fetchD l.url with
    | none =>
      rw [hF] at h
      dsimp only at h ⊢
      exact ih fetchD now uid (i + 1) out h
    | some page =>
      rw [hF] at h
      dsimp only at h ⊢
      cases hP : parse_scorecard page l.url with
      | error e => rw [hP] at h; cases h
      | ok r0 =>
        rw [hP] at h
        dsimp only at h ⊢
        rw [resolve_game_eq r0 l.game] at h
        have hgetD : ({ r0 with game := some (resolvedGame r0 l.game) } : Record).game.getD ""
            = resolvedGame r0 l.game := rfl
        rw [hgetD] at h
        by_cases hacc : is_golden_tee_game (some (resolvedGame r0 l.game)) = true
        · rw [if_pos hacc] at h
          rw [if_pos hacc]
          cases hT : scrape_links fetchD now uid (i + 1) ls with
          | error e => rw [hT] at h; cases h
          | ok tail =>
            rw [hT] at h
            dsimp only at h ⊢
            cases h
            rw [ih fetchD now uid (i + 1) tail hT]
            rfl
        · rw [if_neg hacc] at h
          rw [if_neg hacc]
          exact ih fetchD now uid (i + 1) out h

theorem keptSpec_mem (fetchD : String → Option Page) (now : Nat → String) (uid : String)
    (i : Nat) (links : List EntryLink) (r : Record)
    (hr : r ∈ keptSpec fetchD now uid i links) :
    r.query_user_id = some uid ∧ is_golden_tee_game r.game = true ∧
      ∃ j, r.scraped_at = some (now j) := by
  unfold keptSpec at hr
  rw [List.mem_filterMap] at hr
  obtain ⟨il, hmem, hf⟩ := hr
  dsimp only at hf
  cases hF : fetchD il.2.url with
  | none => rw [hF] at hf; cases hf
  | some page =>
    rw [hF] at hf
    dsimp only at hf
    cases hP : parse_scorecard page il.2.url with
    | error e => rw [hP] at hf; cases hf
    | ok r0 =>
      rw [hP] at hf
      dsimp only at hf
      by_cases hacc : is_golden_tee_game (some (resolvedGame r0 il.2.game)) = true
      · rw [if_pos hacc] at hf
        injection hf with hf2
        subst hf2
        exact ⟨rfl, hacc, ⟨il.1, rfl⟩⟩
      · rw [if_neg hacc] at hf
        cases hf

/-- C8 (confirmed): a parsed record is appended to the run of kept records
exactly when the classifier accepts its resolved game value (the parsed
title, falling back to the link hint when the parse found no or an empty
title), and every appended record carries query_user_id equal to the
identifier being processed and a scraped_at timestamp taken at its own
append step. -/
theorem C8_append_iff_classifier (fetchD : String → Option Page) (now : Nat → String)
    (uid : String) (i : Nat) (links : List EntryLink) (out : List Record)
    (h : scrape_links fetchD now uid i links = .ok out) :
    out = keptSpec fetchD now uid i links ∧
    ∀ r ∈ out, r.query_user_id = some uid ∧ is_golden_tee_game r.game = true ∧
      ∃ j, r.scraped_at = some (now j) := by
  have h1 := scrape_links_eq_keptSpec links fetchD now uid i out h
  refine ⟨h1, fun r hr => keptSpec_mem fetchD now uid i links r ?_⟩
  rw [← h1]
  exact hr

theorem C8_append_iff_classifier_witness :
    ([recC8w] : List Record) = keptSpec fetchC8w nowC8w "user42" 0 linksC8w :=
  (C8_append_iff_classifier fetchC8w nowC8w "user42" 0 linksC8w [recC8w] (by decide)).1

theorem fetch_page_go_congr : ∀ (remaining attempt : Nat)
    (net net' : Nat → Except NetErr String),
    (∀ a, attempt ≤ a → a < attempt + remaining → net a = net' a) →
    fetch_page_go net attempt remaining = fetch_page_go net' attempt remaining := by
  intro remaining
  induction remaining with
  | zero => intro attempt net net' _; rfl
  | succ m ih =>
    intro attempt net net' h
    unfold fetch_page_go
    rw [h attempt (Nat.le_refl _) (by omega)]
    cases net' attempt with
    | ok t => rfl
    | error e => exact ih (attempt + 1) net net' (fun a h1 h2 => h a (by omega) (by omega))

theorem fetch_page_go_all_fail : ∀ (remaining attempt : Nat)
    (net : Nat → Except NetErr String),
    (∀ a, attempt ≤ a → a < attempt + remaining → net a = .error .requestException) →
    fetch_page_go net attempt remaining = none := by
  intro remaining
  induction remaining with
  | zero => intro attempt net _; rfl
  | succ m ih =>
    intro attempt net h
    unfold fetch_page_go
    rw [h attempt (Nat.le_refl _) (by omega)]
    exact ih (attempt + 1) net (fun a h1 h2 => h a (by omega) (by omega))

/-- C9 (confirmed): fetch_page consults at most max_retries = 3 attempts
(its result only depends on the outcomes of attempts 0, 1 and 2 — a non-2xx
status raises inside the try and is caught like any transport error), and
when every attempt fails it returns the failure value None instead of
raising; on such a failure the per-link loop skips just that link and the
per-identifier loop skips just that identifier, continuing with the rest of
the run. -/
theorem C9_fetch_retry_and_skip :
    (∀ net net' : Nat → Except NetErr String,
        (∀ a, a < max_retries → net a = net' a) → fetch_page net = fetch_page net') ∧
    (∀ net : Nat → Except NetErr String,
        (∀ a, a < max_retries → net a = .error .requestException) →
        fetch_page net = none) ∧
    (∀ (fetchD : String → Option Page) (now : Nat → String) (uid : String) (i : Nat)
        (l : EntryLink) (ls : List EntryLink), fetchD l.url = none →
        scrape_links fetchD now uid i (l :: ls) = scrape_links fetchD now uid (i + 1) ls) ∧
    (∀ (fetchB : String → Option (List EntryLink)) (fetchD : String → Option Page)
        (now : Nat → String) (u : String) (us : List String), fetchB (base_url u) = none →
        scrape_all_users fetchB fetchD now (u :: us) = scrape_all_users fetchB fetchD now us) := by
  refine ⟨?_, ?_, ?_, ?_⟩
  · intro net net' h
    exact fetch_page_go_congr max_retries 0 net net' (fun a _ h2 => h a (by omega))
  · intro net h
    exact fetch_page_go_all_fail max_retries 0 net (fun a _ h2 => h a (by omega))
  · intro fetchD now uid i l ls h
    simp only [scrape_links, h]
  · intro fetchB fetchD now u us h
    simp only [scrape_all_users, scrape_user_entries, h]
    cases hr : scrape_all_users fetchB fetchD now us <;> simp

theorem C9_fetch_retry_and_skip_witness :
    fetch_page (fun _ => .error .requestException) = none ∧
    scrape_all_users (fun _ => none) (fun _ => none) (fun _ => "t") ["u1", "u2"] =
      scrape_all_users (fun _ => none) (fun _ => none) (fun _ => "t") ["u2"] :=
  ⟨C9_fetch_retry_and_skip.2.1 _ (fun _ _ => rfl),
   C9_fetch_retry_and_skip.2.2.2 _ _ _ "u1" ["u2"] rfl⟩

end GT

namespace GT

/-- C4: the CSV writer is configured with the fixed field list of line 276,
which omits capture_id and scraped_at even though the flat entry built at
lines 256-263 carries exactly the twelve claimed columns in the claimed
order; with extrasaction ignore the two columns are silently dropped from
every written row. The claim matches the row dicts the code builds, and the
written header contradicts it. -/
theorem C4_csv_drops_capture_id_scraped_at :
    (flat_entry recC4bug).map Prod.fst =
      ["game", "username", "query_user_id", "course", "date", "capture_id",
       "total_score", "score_vs_par", "gsp", "youtube_video", "entry_url", "scraped_at",
       "hole_1", "hole_2"] ∧
    save_to_csv [recC4bug] =
      [["game", "username", "query_user_id", "course", "date", "total_score",
        "score_vs_par", "gsp", "youtube_video", "entry_url", "hole_1", "hole_2"],
       ["G", "U", "Q", "C", "D", "20", "-4", "100", "Y", "E", "4", "5"]] ∧
    "capture_id" ∉ (save_to_csv [recC4bug]).headD [] ∧
    "scraped_at" ∉ (save_to_csv [recC4bug]).headD [] := by
  exact ⟨by decide, by decide, by decide, by decide⟩

end GT
